import Mathlib

/-!
Verification development for the emed-mailer service.

The repository ships the composition root (the source file holding main) and
the mailer Config struct. The bodies of pkg/collector, pkg/mailer and
pkg/job are not part of the shipped sources; those components are modelled
from the specification, as marked on each definition. The main function is
embedded from the source file directly as a trace of observable events.
-/

namespace EmedMailer

/-- Modelled from the spec: the change kind of an appointment event,
Booked or Cancelled (spec section 3, AppointmentChange). -/
inductive ChangeKind where
  | Booked
  | Cancelled
deriving DecidableEq, Repr

/-- Modelled from the spec: one booked-or-cancelled event, with an
identifier, a change kind, a timestamp and display fields for the mail
body (spec section 3, AppointmentChange). The missing source is
pkg/collector. Timestamps double as the change sequence values. -/
structure AppointmentChange where
  id : Nat
  kind : ChangeKind
  ts : Nat
  display : String
deriving DecidableEq, Repr

/-- Modelled from the spec: the error taxonomy of the Collector
(spec section 7). The missing source is pkg/collector. -/
inductive CollectorError where
  | ConnectionLost
  | QueryFailed
  | MappingFailed
deriving DecidableEq, Repr

/-- Modelled from the spec: the Collector state is the in-memory
watermark, a cursor over change timestamps (spec section 3, Watermark).
The missing source is pkg/collector. -/
structure CollectorState where
  watermark : Nat
deriving DecidableEq, Repr

/-- Modelled from the spec: the deterministic row order of the Collector
query, ascending by change timestamp with ties broken by the stable row
id (spec section 4.1). -/
def changeLE (a b : AppointmentChange) : Prop :=
  a.ts < b.ts ∨ (a.ts = b.ts ∧ a.id ≤ b.id)

instance : DecidableRel changeLE := fun a b => by
  unfold changeLE; infer_instance

instance : IsTotal AppointmentChange changeLE where
  total a b := by unfold changeLE; omega

instance : IsTrans AppointmentChange changeLE where
  trans a b c := by unfold changeLE; omega

/-- Modelled from the spec: sorting of the queried rows into the
deterministic batch order (spec section 4.1). -/
def sortBatch (l : List AppointmentChange) : List AppointmentChange :=
  List.insertionSort changeLE l

/-- Modelled from the spec: the watermark advanced to the maximum change
timestamp observed in a batch, starting from the current watermark
(spec section 4.1). -/
def maxTs (w : Nat) (l : List AppointmentChange) : Nat :=
  l.foldl (fun a c => max a c.ts) w

/-- Modelled from the spec: a successful FetchChanges call. It queries
the store for rows whose change timestamp is strictly greater than the
current watermark, orders them ascending with the stable tie break, and
advances the watermark to the maximum timestamp of the returned batch,
leaving it unchanged when the batch is empty (spec section 4.1). The
missing source is pkg/collector. -/
def fetchChanges (store : List AppointmentChange) (st : CollectorState) :
    CollectorState × List AppointmentChange :=
  let batch := sortBatch (store.filter (fun c => decide (st.watermark < c.ts)))
  (⟨maxTs st.watermark batch⟩, batch)

/-- Modelled from the spec: row-by-row mapping of queried rows into
AppointmentChange values, with a per-row failure oracle standing for a
mapping failure partway through the batch (spec section 4.1). -/
def mapRows (failAt : AppointmentChange → Bool) :
    List AppointmentChange → Except CollectorError (List AppointmentChange)
  | [] => .ok []
  | c :: rest =>
    if failAt c then .error .MappingFailed
    else
      match mapRows failAt rest with
      | .error e => .error e
      | .ok rs => .ok (c :: rs)

/-- Modelled from the spec: the fallible FetchChanges call. The watermark
is advanced only after the batch is fully materialized; if the mapping
fails partway, the state is returned unchanged (spec section 4.1). The
missing source is pkg/collector. -/
def fetchChangesE (failAt : AppointmentChange → Bool)
    (store : List AppointmentChange) (st : CollectorState) :
    CollectorState × Except CollectorError (List AppointmentChange) :=
  match mapRows failAt (sortBatch (store.filter (fun c => decide (st.watermark < c.ts)))) with
  | .error e => (st, .error e)
  | .ok batch => (⟨maxTs st.watermark batch⟩, .ok batch)

/-- Modelled from the spec: one run of FetchChanges per tick against a
change source that may insert new rows before each call; returns the
batches in call order (spec section 8, property 1). -/
def runBatches : CollectorState → List AppointmentChange →
    List (List AppointmentChange) → List (List AppointmentChange)
  | _, _, [] => []
  | st, store, new :: rest =>
    let store2 := store ++ new
    let res := fetchChanges store2 st
    res.2 :: runBatches res.1 store2 rest

/-- Modelled from the spec: a monotonically advancing change source:
every row inserted before a call carries a timestamp strictly above the
watermark the Collector holds when that call happens (spec section 8,
property 1). -/
def monotoneSrc : Nat → List (List AppointmentChange) → Bool
  | _, [] => true
  | w, new :: rest =>
    new.all (fun c => decide (w < c.ts)) && monotoneSrc (maxTs w new) rest

/-- Config struct from src/internal/mailer/config.go: all settings for
TextMailer. Field names follow the Go struct; Port is a Go int. -/
structure Config where
  Server : String
  Port : Int
  User : String
  Password : String
  From : String
  To : String
  Subject : String
deriving DecidableEq, Repr

/-- Modelled from the spec: the error taxonomy of the Mailer
(spec section 7). The missing source is pkg/mailer. -/
inductive MailerError where
  | NotRunning
  | AuthFailed
  | ConnectFailed
  | SendFailed
deriving DecidableEq, Repr

/-- Modelled from the spec: the unit of work of the mailer, with
recipients, subject and a body rendered from a batch (spec section 3,
NotificationMessage). The missing source is pkg/mailer. -/
structure NotificationMessage where
  sender : String
  recipient : String
  subject : String
  body : String
deriving DecidableEq, Repr

/-- Modelled from the spec: the mailer as seen through the enqueue
boundary, holding its configuration, whether the shutdown signal has
been observed, and the internal FIFO queue (spec sections 3 and 4.2).
The missing source is pkg/mailer. -/
structure TextMailer where
  cfg : Config
  shutdownObserved : Bool
  queue : List NotificationMessage
deriving DecidableEq, Repr

/-- Modelled from the spec: mailer.New, building a mailer from its
configuration with an empty queue and the worker not yet signalled
(spec section 4.2). The missing source is pkg/mailer. -/
def mailerNew (cfg : Config) : TextMailer :=
  ⟨cfg, false, []⟩

/-- Modelled from the spec: Enqueue, a push onto the internal queue that
fails with NotRunning once shutdown has begun, leaving the queue
untouched (spec section 4.2). The function is total, which renders the
never-blocks contract in this embedding. The missing source is
pkg/mailer. -/
def Enqueue (m : TextMailer) (msg : NotificationMessage) :
    TextMailer × Except MailerError Unit :=
  if m.shutdownObserved then (m, .error .NotRunning)
  else ({ m with queue := m.queue ++ [msg] }, .ok ())

/-- Modelled from the spec: the background worker draining the queue,
one message at a time, with a send outcome oracle indexed by position in
the drain. Each message yields exactly one send attempt; a failed
attempt is recorded and the worker moves on to the next message
(spec section 4.2). The missing source is pkg/mailer. -/
def workerDrain (sendOk : NotificationMessage → Nat → Bool) :
    Nat → List NotificationMessage → List (NotificationMessage × Bool)
  | _, [] => []
  | i, msg :: rest => (msg, sendOk msg i) :: workerDrain sendOk (i + 1) rest

/-- Modelled from the spec: the body of the notification rendered from a
batch (spec section 4.3). The missing source is pkg/job. -/
def renderBody : List AppointmentChange → String
  | [] => ""
  | c :: rest =>
    toString c.id ++
      (match c.kind with
       | .Booked => " booked "
       | .Cancelled => " cancelled ") ++
      c.display ++ "\n" ++ renderBody rest

/-- Modelled from the spec: the NotificationMessage rendered from a
batch under a mail configuration (spec section 4.3). The missing source
is pkg/job. -/
def render (cfg : Config) (batch : List AppointmentChange) : NotificationMessage :=
  ⟨cfg.From, cfg.To, cfg.Subject, renderBody batch⟩

/-- Modelled from the spec: the observable outcome of one Job.Run tick
(spec section 4.3). The missing source is pkg/job. -/
inductive JobOutcome where
  | fetchFailed (e : CollectorError)
  | emptyBatch
  | enqueued
  | enqueueDropped (e : MailerError)
deriving DecidableEq, Repr

/-- Modelled from the spec: the state and outcome produced by one
Job.Run tick, with an explicit count of the Enqueue calls made
(spec section 4.3). The missing source is pkg/job. -/
structure JobResult where
  coll : CollectorState
  mail : TextMailer
  enqueueCalls : Nat
  outcome : JobOutcome
deriving Repr

/-- Modelled from the spec: Job.Run, the linear per-tick sequence: fetch
changes; on error log and return; on an empty batch return without
contacting the mailer; otherwise render one message and make exactly one
Enqueue call, dropping the message when Enqueue errors
(spec section 4.3). The missing source is pkg/job. -/
def jobRun (failAt : AppointmentChange → Bool)
    (store : List AppointmentChange) (cst : CollectorState) (m : TextMailer) :
    JobResult :=
  match fetchChangesE failAt store cst with
  | (cst2, .error e) => ⟨cst2, m, 0, .fetchFailed e⟩
  | (cst2, .ok []) => ⟨cst2, m, 0, .emptyBatch⟩
  | (cst2, .ok (c :: cs)) =>
    match Enqueue m (render m.cfg (c :: cs)) with
    | (m2, .ok _) => ⟨cst2, m2, 1, .enqueued⟩
    | (m2, .error e) => ⟨cst2, m2, 1, .enqueueDropped e⟩

/-- Observable events of the main function, in the order the source
file emits them: help output, process exits, the database open and the
deferred closes, mailer daemon start, cron scheduler lifecycle, job
ticks, and the channel closes during shutdown. The waitWorker event
stands for a join on the mailer worker; it is part of the alphabet so
that its absence from every trace can be stated. -/
inductive Event where
  | printCause
  | showAppHelp
  | processExit (code : Nat)
  | logFatal
  | dbOpened
  | mailerRun
  | cronNew
  | cronAddFunc
  | cronStart
  | tickRan (o : JobOutcome)
  | cronStop
  | closeSigs
  | closeStop
  | waitWorker
  | dbClose
  | logFileClose
deriving DecidableEq, Repr

/-- Environment of one process run: which of the fallible startup steps
of main succeed. The first four follow the source file directly; smtpOk
is modelled from the spec, which makes an unreachable SMTP server at
process start fatal (spec section 7), the mailer body being absent from
the shipped sources. -/
structure Env where
  configLoadOk : Bool
  logFileOk : Bool
  logLevelOk : Bool
  dbOk : Bool
  smtpOk : Bool
deriving DecidableEq, Repr

/-- One scheduler tick as driven by cron: rows newly inserted into the
store before the tick, and the mapping failure oracle of the Collector
for that tick. -/
structure Tick where
  newRows : List AppointmentChange
  failAt : AppointmentChange → Bool

/-- Events of the scheduled job ticks, threading the collector state,
the growing store and the mailer through consecutive jobRun calls. -/
def ticksEvents : CollectorState → List AppointmentChange → TextMailer →
    List Tick → List Event
  | _, _, _, [] => []
  | cst, store, m, t :: rest =>
    let store2 := store ++ t.newRows
    let r := jobRun t.failAt store2 cst m
    .tickRan r.outcome :: ticksEvents r.coll store2 r.mail rest

/-- The Action of main from the source file, as the trace of observable
events of one process run. Branches in source order: config.Load failure
and the log file open failure print the cause with the help text and
exit with code 128 before anything else runs; a log level parse failure
does the same after the deferred log file close; a database open failure
hits log.Fatal, which exits with code 1 and skips the defers; then the
mailer daemon starts (fatal when SMTP is unreachable, modelled from the
spec), the cron scheduler is created and started, ticks run, and on a
termination signal the scheduler is stopped, the signal channel and the
stop channel are closed, and the deferred closes release the database
and the log file. -/
def mainAction (env : Env) (cfg : Config) (wm0 : Nat) (ticks : List Tick) :
    List Event :=
  if !env.configLoadOk then [.printCause, .showAppHelp, .processExit 128]
  else if !env.logFileOk then [.printCause, .showAppHelp, .processExit 128]
  else if !env.logLevelOk then
    [.printCause, .showAppHelp, .logFileClose, .processExit 128]
  else if !env.dbOk then [.logFatal, .processExit 1]
  else if !env.smtpOk then [.dbOpened, .logFatal, .processExit 1]
  else
    [.dbOpened, .mailerRun, .cronNew, .cronAddFunc, .cronStart] ++
      ticksEvents ⟨wm0⟩ [] (mailerNew cfg) ticks ++
      [.cronStop, .closeSigs, .closeStop, .dbClose, .logFileClose]

/-- All five fallible startup steps of main succeed. -/
def startupOk (env : Env) : Prop :=
  env.configLoadOk = true ∧ env.logFileOk = true ∧ env.logLevelOk = true ∧
    env.dbOk = true ∧ env.smtpOk = true

instance (env : Env) : Decidable (startupOk env) := by
  unfold startupOk; infer_instance

/-- A concrete configuration used by closed witness statements. -/
def cfg0 : Config :=
  ⟨"smtp.example.org", 25, "u", "p", "noreply@example.org", "ops@example.org", "Appointments"⟩

/-- A concrete change used by closed witness statements. -/
def chg (i k : Nat) : AppointmentChange :=
  ⟨i, if k = 0 then .Booked else .Cancelled, i, ""⟩

-- Helper lemmas about maxTs.

theorem le_maxTs (w : Nat) (l : List AppointmentChange) : w ≤ maxTs w l := by
  induction l generalizing w with
  | nil => exact Nat.le_refl w
  | cons c rest ih =>
    exact Nat.le_trans (Nat.le_max_left w c.ts) (ih (max w c.ts))

theorem ts_le_maxTs (w : Nat) (l : List AppointmentChange) :
    ∀ c ∈ l, c.ts ≤ maxTs w l := by
  induction l generalizing w with
  | nil => intro c hc; cases hc
  | cons d rest ih =>
    intro c hc
    rcases List.mem_cons.mp hc with rfl | h
    · exact Nat.le_trans (Nat.le_max_right w c.ts) (le_maxTs (max w c.ts) rest)
    · exact ih (max w d.ts) c h

theorem maxTs_mem (w : Nat) (l : List AppointmentChange) :
    maxTs w l = w ∨ ∃ c ∈ l, maxTs w l = c.ts := by
  induction l generalizing w with
  | nil => exact Or.inl rfl
  | cons d rest ih =>
    have hunf : maxTs w (d :: rest) = maxTs (max w d.ts) rest := rfl
    rcases ih (max w d.ts) with h | ⟨c, hc, hcts⟩
    · rcases Nat.le_total w d.ts with hle | hle
      · exact Or.inr ⟨d, List.mem_cons_self d rest, by rw [hunf, h]; omega⟩
      · exact Or.inl (by rw [hunf, h]; omega)
    · exact Or.inr ⟨c, List.mem_cons_of_mem d hc, by rw [hunf, hcts]⟩

theorem maxTs_perm {l₁ l₂ : List AppointmentChange} (h : l₁.Perm l₂) :
    ∀ w, maxTs w l₁ = maxTs w l₂ := by
  induction h with
  | nil => intro w; rfl
  | cons c _ ih =>
    intro w
    exact ih (max w c.ts)
  | swap a b l =>
    intro w
    show maxTs (max (max w b.ts) a.ts) l = maxTs (max (max w a.ts) b.ts) l
    rw [Nat.max_right_comm]
  | trans _ _ ih₁ ih₂ => intro w; rw [ih₁ w, ih₂ w]

-- Helper lemmas about fetchChanges.

theorem fetchChanges_batch_perm (store : List AppointmentChange) (st : CollectorState) :
    (fetchChanges store st).2.Perm
      (store.filter (fun c => decide (st.watermark < c.ts))) :=
  List.perm_insertionSort changeLE _

theorem mem_fetchChanges (store : List AppointmentChange) (st : CollectorState)
    (c : AppointmentChange) :
    c ∈ (fetchChanges store st).2 ↔ (c ∈ store ∧ st.watermark < c.ts) := by
  unfold fetchChanges sortBatch
  simp [List.mem_insertionSort, List.mem_filter]

theorem fetchChanges_sorted (store : List AppointmentChange) (st : CollectorState) :
    List.Sorted changeLE (fetchChanges store st).2 :=
  List.sorted_insertionSort changeLE _

theorem fetchChanges_watermark (store : List AppointmentChange) (st : CollectorState) :
    (fetchChanges store st).1.watermark = maxTs st.watermark (fetchChanges store st).2 :=
  rfl

/-- Claim C3: a successful FetchChanges call returns exactly the stored rows
whose change timestamp is strictly greater than the watermark (as sets and
as multisets), ordered ascending by timestamp with ties broken by the
stable row id, and sets the watermark to the maximum timestamp of the
returned batch, leaving the state unchanged when the batch is empty. -/
theorem fetchChanges_spec (store : List AppointmentChange) (st : CollectorState) :
    (∀ c, c ∈ (fetchChanges store st).2 ↔ (c ∈ store ∧ st.watermark < c.ts)) ∧
    (fetchChanges store st).2.Perm
      (store.filter (fun c => decide (st.watermark < c.ts))) ∧
    List.Sorted changeLE (fetchChanges store st).2 ∧
    ((fetchChanges store st).2 = [] → (fetchChanges store st).1 = st) ∧
    ((fetchChanges store st).2 ≠ [] →
      ∃ c ∈ (fetchChanges store st).2,
        (fetchChanges store st).1.watermark = c.ts ∧
          ∀ d ∈ (fetchChanges store st).2, d.ts ≤ c.ts) := by
  refine ⟨mem_fetchChanges store st, fetchChanges_batch_perm store st,
    fetchChanges_sorted store st, ?_, ?_⟩
  · intro hempty
    have hw : (fetchChanges store st).1.watermark = st.watermark := by
      rw [fetchChanges_watermark, hempty]
      exact rfl
    cases h1 : (fetchChanges store st).1 with
    | mk w =>
      cases st with
      | mk w0 =>
        rw [h1] at hw
        exact congrArg CollectorState.mk hw
  · intro hne
    rcases List.exists_mem_of_ne_nil _ hne with ⟨c0, hc0⟩
    rcases maxTs_mem st.watermark (fetchChanges store st).2 with heq | ⟨c, hc, hcts⟩
    · exfalso
      have h1 : st.watermark < c0.ts := ((mem_fetchChanges store st c0).mp hc0).2
      have h2 : c0.ts ≤ maxTs st.watermark (fetchChanges store st).2 :=
        ts_le_maxTs _ _ c0 hc0
      omega
    · refine ⟨c, hc, ?_, ?_⟩
      · rw [fetchChanges_watermark, hcts]
      · intro d hd
        have h2 : d.ts ≤ maxTs st.watermark (fetchChanges store st).2 :=
          ts_le_maxTs _ _ d hd
        omega

/-- Witness for C3 at a concrete store and watermark, with the non-empty
batch hypothesis discharged by evaluation. -/
theorem fetchChanges_spec_witness :
    ∃ c ∈ (fetchChanges [chg 1 0] ⟨0⟩).2,
      (fetchChanges [chg 1 0] ⟨0⟩).1.watermark = c.ts ∧
        ∀ d ∈ (fetchChanges [chg 1 0] ⟨0⟩).2, d.ts ≤ c.ts :=
  (fetchChanges_spec [chg 1 0] ⟨0⟩).2.2.2.2 (by decide)

-- Helper lemma: a failed fetch leaves the collector state untouched.

theorem fetchChangesE_error_state (failAt : AppointmentChange → Bool)
    (store : List AppointmentChange) (st : CollectorState) (e : CollectorError)
    (h : (fetchChangesE failAt store st).2 = .error e) :
    (fetchChangesE failAt store st).1 = st := by
  unfold fetchChangesE at h ⊢
  cases hm : mapRows failAt
      (sortBatch (store.filter (fun c => decide (st.watermark < c.ts)))) with
  | error e2 => simp [hm]
  | ok batch => rw [hm] at h; simp at h

/-- Claim C2: if a FetchChanges call fails, even with the mapping failing
partway through the rows, the watermark is unchanged by that call, and the
next successful call returns every stored row above the old watermark,
including the rows involved in the failed call. -/
theorem fetchChanges_failure_retry (failAt : AppointmentChange → Bool)
    (store : List AppointmentChange) (st : CollectorState) (e : CollectorError)
    (h : (fetchChangesE failAt store st).2 = .error e) :
    (fetchChangesE failAt store st).1 = st ∧
    ∀ c ∈ store, st.watermark < c.ts →
      c ∈ (fetchChanges store (fetchChangesE failAt store st).1).2 := by
  have hst := fetchChangesE_error_state failAt store st e h
  refine ⟨hst, ?_⟩
  intro c hc hlt
  rw [hst]
  exact (mem_fetchChanges store st c).mpr ⟨hc, hlt⟩

/-- Witness for C2: a mapping that fails on every row leaves the watermark
at 0 and the retry returns the row the failed call was reading. -/
theorem fetchChanges_failure_retry_witness :
    (fetchChangesE (fun _ => true) [chg 1 0] ⟨0⟩).1 = (⟨0⟩ : CollectorState) ∧
    ∀ c ∈ [chg 1 0], (0 : Nat) < c.ts →
      c ∈ (fetchChanges [chg 1 0] (fetchChangesE (fun _ => true) [chg 1 0] ⟨0⟩).1).2 :=
  fetchChanges_failure_retry (fun _ => true) [chg 1 0] ⟨0⟩ .MappingFailed rfl

-- Helper lemma: the no-duplicate, no-gap invariant across a run of calls.

theorem runBatches_flatten_perm :
    ∀ (inserts : List (List AppointmentChange)) (st : CollectorState)
      (store : List AppointmentChange),
      (∀ c ∈ store, c.ts ≤ st.watermark) →
      monotoneSrc st.watermark inserts = true →
      (runBatches st store inserts).flatten.Perm inserts.flatten := by
  intro inserts
  induction inserts with
  | nil =>
    intro st store _ _
    exact List.Perm.refl _
  | cons new rest ih =>
    intro st store hstore hmono
    rw [monotoneSrc, Bool.and_eq_true] at hmono
    have hall : ∀ c ∈ new, st.watermark < c.ts := by
      intro c hc
      have := List.all_eq_true.mp hmono.1 c hc
      exact of_decide_eq_true this
    have hrest : monotoneSrc (maxTs st.watermark new) rest = true := hmono.2
    have hfilter :
        (store ++ new).filter (fun c => decide (st.watermark < c.ts)) = new := by
      rw [List.filter_append]
      have h1 : store.filter (fun c => decide (st.watermark < c.ts)) = [] := by
        refine List.filter_eq_nil_iff.mpr ?_
        intro c hc
        simp only [decide_eq_true_eq]
        exact Nat.not_lt.mpr (hstore c hc)
      have h2 : new.filter (fun c => decide (st.watermark < c.ts)) = new := by
        refine List.filter_eq_self.mpr ?_
        intro c hc
        exact decide_eq_true (hall c hc)
      rw [h1, h2, List.nil_append]
    have hbatchperm : (fetchChanges (store ++ new) st).2.Perm new := by
      have hp := fetchChanges_batch_perm (store ++ new) st
      rw [hfilter] at hp
      exact hp
    have hwm : (fetchChanges (store ++ new) st).1.watermark =
        maxTs st.watermark new := by
      rw [fetchChanges_watermark]
      exact maxTs_perm hbatchperm st.watermark
    have hstore2 : ∀ c ∈ store ++ new,
        c.ts ≤ (fetchChanges (store ++ new) st).1.watermark := by
      intro c hc
      rw [hwm]
      rcases List.mem_append.mp hc with h | h
      · exact Nat.le_trans (hstore c h) (le_maxTs _ _)
      · exact ts_le_maxTs _ _ c h
    have hmono2 :
        monotoneSrc (fetchChanges (store ++ new) st).1.watermark rest = true := by
      rw [hwm]
      exact hrest
    show ((fetchChanges (store ++ new) st).2 ::
        runBatches (fetchChanges (store ++ new) st).1 (store ++ new) rest).flatten.Perm
      (new :: rest).flatten
    simp only [List.flatten_cons]
    exact hbatchperm.append (ih _ _ hstore2 hmono2)

/-- Claim C1: against a monotonically advancing change source, the union of
the batches returned by a sequence of FetchChanges calls contains each
underlying change exactly once: the concatenation of the batches is a
permutation of the concatenation of the inserted rows, so counts agree on
every change, with no duplicate and no gap. -/
theorem fetchChanges_exactly_once (wm0 : Nat)
    (inserts : List (List AppointmentChange))
    (hmono : monotoneSrc wm0 inserts = true) :
    (runBatches ⟨wm0⟩ [] inserts).flatten.Perm inserts.flatten ∧
    ∀ c, (runBatches ⟨wm0⟩ [] inserts).flatten.count c =
      inserts.flatten.count c := by
  have h := runBatches_flatten_perm inserts ⟨wm0⟩ []
    (by intro c hc; cases hc) hmono
  exact ⟨h, fun c => h.count_eq c⟩

/-- Witness for C1: two ticks, each inserting one fresh change, yield
batches whose union is exactly the two inserted changes. -/
theorem fetchChanges_exactly_once_witness :
    (runBatches ⟨0⟩ [] [[chg 1 0], [chg 2 1]]).flatten.Perm
      ([[chg 1 0], [chg 2 1]] : List (List AppointmentChange)).flatten ∧
    ∀ c, (runBatches ⟨0⟩ [] [[chg 1 0], [chg 2 1]]).flatten.count c =
      ([[chg 1 0], [chg 2 1]] : List (List AppointmentChange)).flatten.count c :=
  fetchChanges_exactly_once 0 [[chg 1 0], [chg 2 1]] (by decide)

/-- Claim C4: Enqueue after the shutdown signal has been observed returns
the NotRunning mailer error and leaves the mailer, in particular its
queue, unchanged; before shutdown it is a plain queue push. Enqueue is a
total function of the mailer state, so the call always returns without
any network interaction. -/
theorem enqueue_after_shutdown (m : TextMailer) (msg : NotificationMessage) :
    (m.shutdownObserved = true →
      (Enqueue m msg).2 = .error .NotRunning ∧ (Enqueue m msg).1 = m) ∧
    (m.shutdownObserved = false →
      (Enqueue m msg).2 = .ok () ∧ (Enqueue m msg).1.queue = m.queue ++ [msg]) := by
  constructor
  · intro h
    simp [Enqueue, h]
  · intro h
    simp [Enqueue, h]

/-- Witness for C4: on a mailer that has observed shutdown, Enqueue
rejects the message with NotRunning and the state is untouched. -/
theorem enqueue_after_shutdown_witness :
    (Enqueue ⟨cfg0, true, []⟩ (render cfg0 [chg 1 0])).2 = .error .NotRunning ∧
    (Enqueue ⟨cfg0, true, []⟩ (render cfg0 [chg 1 0])).1 = ⟨cfg0, true, []⟩ :=
  (enqueue_after_shutdown ⟨cfg0, true, []⟩ (render cfg0 [chg 1 0])).1 rfl

-- Helper lemma: the worker attempts the queued messages in queue order.

theorem workerDrain_map_fst (sendOk : NotificationMessage → Nat → Bool)
    (i : Nat) (msgs : List NotificationMessage) :
    (workerDrain sendOk i msgs).map Prod.fst = msgs := by
  induction msgs generalizing i with
  | nil => rfl
  | cons m rest ih => simp [workerDrain, ih]

/-- Claim C5: the sequence of messages the background worker hands to the
SMTP transport is exactly the sequence enqueued: for any send outcomes,
the first components of the send attempts, in order, equal the queue. -/
theorem worker_sends_in_enqueue_order (sendOk : NotificationMessage → Nat → Bool)
    (msgs : List NotificationMessage) :
    (workerDrain sendOk 0 msgs).map Prod.fst = msgs :=
  workerDrain_map_fst sendOk 0 msgs

/-- Claim C7: the worker performs exactly one send attempt per queued
message, whatever the send outcomes: the attempt count equals the queue
length, each message is attempted exactly as often as it was enqueued,
and the attempted sequence does not depend on which sends fail, so a
failed send is never retried or requeued. -/
theorem worker_at_most_once (sendOk sendOk2 : NotificationMessage → Nat → Bool)
    (msgs : List NotificationMessage) (m : NotificationMessage) :
    (workerDrain sendOk 0 msgs).length = msgs.length ∧
    ((workerDrain sendOk 0 msgs).map Prod.fst).count m = msgs.count m ∧
    (workerDrain sendOk 0 msgs).map Prod.fst =
      (workerDrain sendOk2 0 msgs).map Prod.fst := by
  refine ⟨?_, ?_, ?_⟩
  · have h := congrArg List.length (workerDrain_map_fst sendOk 0 msgs)
    rw [List.length_map] at h
    exact h
  · rw [workerDrain_map_fst]
  · rw [workerDrain_map_fst, workerDrain_map_fst]

-- Helper lemmas about the fallible fetch in the successful case.

theorem fetchChangesE_ok_state (failAt : AppointmentChange → Bool)
    (store : List AppointmentChange) (st : CollectorState)
    (batch : List AppointmentChange)
    (h : (fetchChangesE failAt store st).2 = .ok batch) :
    (fetchChangesE failAt store st).1 = ⟨maxTs st.watermark batch⟩ := by
  unfold fetchChangesE at h ⊢
  cases hm : mapRows failAt
      (sortBatch (store.filter (fun c => decide (st.watermark < c.ts)))) with
  | error e =>
    rw [hm] at h
    simp at h
  | ok rows =>
    rw [hm] at h
    simp only at h
    have hr : rows = batch := (Except.ok.injEq ..).mp h
    rw [hr]

/-- Claim C6: one Job.Run tick is the linear sequence: when FetchChanges
errors, the tick makes no Enqueue call and both the collector watermark
and the mailer are unchanged; when the batch is empty the tick makes no
Enqueue call and the mailer is untouched; when the batch is non-empty the
tick makes exactly one Enqueue call, the watermark has advanced, the
batch can never be returned by a later fetch against any store, and when
Enqueue errors because the mailer observed shutdown the message is
dropped with the queue unchanged, while a running mailer receives the one
rendered message. -/
theorem jobRun_spec (failAt : AppointmentChange → Bool)
    (store : List AppointmentChange) (cst : CollectorState) (m : TextMailer) :
    (∀ e, (fetchChangesE failAt store cst).2 = .error e →
      jobRun failAt store cst m = ⟨cst, m, 0, .fetchFailed e⟩) ∧
    ((fetchChangesE failAt store cst).2 = .ok [] →
      jobRun failAt store cst m =
        ⟨(fetchChangesE failAt store cst).1, m, 0, .emptyBatch⟩) ∧
    (∀ c cs, (fetchChangesE failAt store cst).2 = .ok (c :: cs) →
      (jobRun failAt store cst m).enqueueCalls = 1 ∧
      cst.watermark ≤ (jobRun failAt store cst m).coll.watermark ∧
      (∀ x ∈ c :: cs, ∀ store2,
        x ∉ (fetchChanges store2 (jobRun failAt store cst m).coll).2) ∧
      (m.shutdownObserved = true →
        (jobRun failAt store cst m).outcome = .enqueueDropped .NotRunning ∧
        (jobRun failAt store cst m).mail.queue = m.queue) ∧
      (m.shutdownObserved = false →
        (jobRun failAt store cst m).outcome = .enqueued ∧
        (jobRun failAt store cst m).mail.queue =
          m.queue ++ [render m.cfg (c :: cs)])) := by
  refine ⟨?_, ?_, ?_⟩
  · intro e he
    have hst := fetchChangesE_error_state failAt store cst e he
    unfold jobRun
    cases hfc : fetchChangesE failAt store cst with
    | mk cst2 r =>
      rw [hfc] at he hst
      simp only at he hst
      subst he
      show (⟨cst2, m, 0, .fetchFailed e⟩ : JobResult) = ⟨cst, m, 0, .fetchFailed e⟩
      rw [hst]
  · intro he
    unfold jobRun
    cases hfc : fetchChangesE failAt store cst with
    | mk cst2 r =>
      rw [hfc] at he
      simp only at he
      subst he
      exact rfl
  · intro c cs he
    obtain ⟨mcfg, msd, mq⟩ := m
    have hcoll := fetchChangesE_ok_state failAt store cst (c :: cs) he
    unfold jobRun
    cases hfc : fetchChangesE failAt store cst with
    | mk cst2 r =>
      rw [hfc] at he hcoll
      simp only at he hcoll
      subst he
      cases msd with
      | true =>
        refine ⟨rfl, ?_, ?_, fun _ => ⟨rfl, rfl⟩, fun hf => by simp at hf⟩
        · show cst.watermark ≤ cst2.watermark
          rw [hcoll]
          exact le_maxTs cst.watermark (c :: cs)
        · intro x hx store2 hmem
          have hmem2 : x ∈ (fetchChanges store2 cst2).2 := hmem
          rw [hcoll] at hmem2
          have hts : x.ts ≤ maxTs cst.watermark (c :: cs) :=
            ts_le_maxTs cst.watermark (c :: cs) x hx
          have hgt := ((mem_fetchChanges store2
            ⟨maxTs cst.watermark (c :: cs)⟩ x).mp hmem2).2
          simp only at hgt
          omega
      | false =>
        refine ⟨rfl, ?_, ?_, fun hf => by simp at hf, fun _ => ⟨rfl, rfl⟩⟩
        · show cst.watermark ≤ cst2.watermark
          rw [hcoll]
          exact le_maxTs cst.watermark (c :: cs)
        · intro x hx store2 hmem
          have hmem2 : x ∈ (fetchChanges store2 cst2).2 := hmem
          rw [hcoll] at hmem2
          have hts : x.ts ≤ maxTs cst.watermark (c :: cs) :=
            ts_le_maxTs cst.watermark (c :: cs) x hx
          have hgt := ((mem_fetchChanges store2
            ⟨maxTs cst.watermark (c :: cs)⟩ x).mp hmem2).2
          simp only at hgt
          omega

/-- Witness for C6: a non-empty batch against a shut-down mailer yields
exactly one Enqueue call, the dropped outcome, and an unchanged queue. -/
theorem jobRun_spec_witness :
    (jobRun (fun _ => false) [chg 1 0] ⟨0⟩ ⟨cfg0, true, []⟩).enqueueCalls = 1 ∧
    (jobRun (fun _ => false) [chg 1 0] ⟨0⟩ ⟨cfg0, true, []⟩).outcome =
      .enqueueDropped .NotRunning ∧
    (jobRun (fun _ => false) [chg 1 0] ⟨0⟩ ⟨cfg0, true, []⟩).mail.queue = [] := by
  have h := (jobRun_spec (fun _ => false) [chg 1 0] ⟨0⟩ ⟨cfg0, true, []⟩).2.2
    (chg 1 0) [] rfl
  exact ⟨h.1, (h.2.2.2.1 rfl).1, (h.2.2.2.1 rfl).2⟩

-- Helper lemma: the scheduled ticks only emit tick outcome events.

theorem ticksEvents_tickRan :
    ∀ (ticks : List Tick) (cst : CollectorState) (store : List AppointmentChange)
      (m : TextMailer) (e : Event), e ∈ ticksEvents cst store m ticks →
      ∃ o, e = .tickRan o := by
  intro ticks
  induction ticks with
  | nil =>
    intro _ _ _ e he
    cases he
  | cons t rest ih =>
    intro cst store m e he
    rcases List.mem_cons.mp he with rfl | h
    · exact ⟨_, rfl⟩
    · exact ih _ _ _ e h

/-- Claim C8 counterexample: in a run where every startup step succeeds,
main reaches the shutdown path, closes the stop channel and releases the
database connection, yet no wait on the mailer worker ever occurs in the
trace: main closes the stop channel and returns, and the deferred close
releases the database without waiting for the worker to finish. -/
theorem main_shutdown_wait_counterexample :
    Event.waitWorker ∉ mainAction ⟨true, true, true, true, true⟩ cfg0 0 [] ∧
    Event.closeStop ∈ mainAction ⟨true, true, true, true, true⟩ cfg0 0 [] ∧
    Event.dbClose ∈ mainAction ⟨true, true, true, true, true⟩ cfg0 0 [] := by
  decide

/-- Claim C8 (amended): on shutdown the scheduler is stopped first, then
the signal channel and the process-wide stop channel are closed, the stop
channel exactly once, and then the database connection is released by the
deferred close, without any wait for the mailer worker to finish. -/
theorem main_shutdown_order (env : Env) (cfg : Config) (wm0 : Nat)
    (ticks : List Tick) (h : startupOk env) :
    ∃ pre, mainAction env cfg wm0 ticks =
        pre ++ [.cronStop, .closeSigs, .closeStop, .dbClose, .logFileClose] ∧
      Event.cronStop ∉ pre ∧ Event.closeStop ∉ pre ∧ Event.dbClose ∉ pre ∧
      (mainAction env cfg wm0 ticks).count .closeStop = 1 ∧
      Event.waitWorker ∉ mainAction env cfg wm0 ticks := by
  obtain ⟨h1, h2, h3, h4, h5⟩ := h
  have htr : mainAction env cfg wm0 ticks =
      ([.dbOpened, .mailerRun, .cronNew, .cronAddFunc, .cronStart] ++
        ticksEvents ⟨wm0⟩ [] (mailerNew cfg) ticks) ++
      [.cronStop, .closeSigs, .closeStop, .dbClose, .logFileClose] := by
    simp [mainAction, h1, h2, h3, h4, h5]
  refine ⟨[.dbOpened, .mailerRun, .cronNew, .cronAddFunc, .cronStart] ++
      ticksEvents ⟨wm0⟩ [] (mailerNew cfg) ticks, htr, ?_, ?_, ?_, ?_, ?_⟩
  · intro hmem
    rcases List.mem_append.mp hmem with h | h
    · simp at h
    · rcases ticksEvents_tickRan ticks ⟨wm0⟩ [] (mailerNew cfg) _ h with ⟨o, ho⟩
      cases ho
  · intro hmem
    rcases List.mem_append.mp hmem with h | h
    · simp at h
    · rcases ticksEvents_tickRan ticks ⟨wm0⟩ [] (mailerNew cfg) _ h with ⟨o, ho⟩
      cases ho
  · intro hmem
    rcases List.mem_append.mp hmem with h | h
    · simp at h
    · rcases ticksEvents_tickRan ticks ⟨wm0⟩ [] (mailerNew cfg) _ h with ⟨o, ho⟩
      cases ho
  · rw [htr, List.count_append, List.count_append]
    have hz : (ticksEvents ⟨wm0⟩ [] (mailerNew cfg) ticks).count Event.closeStop = 0 := by
      refine List.count_eq_zero.mpr ?_
      intro hmem
      rcases ticksEvents_tickRan ticks ⟨wm0⟩ [] (mailerNew cfg) _ hmem with ⟨o, ho⟩
      cases ho
    rw [hz]
    decide
  · rw [htr]
    intro hmem
    rcases List.mem_append.mp hmem with h | h
    · rcases List.mem_append.mp h with h | h
      · simp at h
      · rcases ticksEvents_tickRan ticks ⟨wm0⟩ [] (mailerNew cfg) _ h with ⟨o, ho⟩
        cases ho
    · simp at h

/-- Witness for the amended C8 at a concrete environment with no ticks. -/
theorem main_shutdown_order_witness :
    ∃ pre, mainAction ⟨true, true, true, true, true⟩ cfg0 0 [] =
        pre ++ [.cronStop, .closeSigs, .closeStop, .dbClose, .logFileClose] ∧
      Event.cronStop ∉ pre ∧ Event.closeStop ∉ pre ∧ Event.dbClose ∉ pre ∧
      (mainAction ⟨true, true, true, true, true⟩ cfg0 0 []).count .closeStop = 1 ∧
      Event.waitWorker ∉ mainAction ⟨true, true, true, true, true⟩ cfg0 0 [] :=
  main_shutdown_order ⟨true, true, true, true, true⟩ cfg0 0 [] (by decide)

/-- Claim C9: an unreachable database at process start is fatal before the
scheduler starts, an unreachable SMTP server at process start is likewise
fatal before the scheduler starts, and once startup has succeeded no
collector or mailer failure during any sequence of ticks ever produces a
process exit or fatal log in the trace. -/
theorem startup_fatal_runtime_soft (env : Env) (cfg : Config) (wm0 : Nat)
    (ticks : List Tick) :
    (env.configLoadOk = true → env.logFileOk = true → env.logLevelOk = true →
      env.dbOk = false →
      mainAction env cfg wm0 ticks = [.logFatal, .processExit 1] ∧
      Event.cronStart ∉ mainAction env cfg wm0 ticks ∧
      ∀ o, Event.tickRan o ∉ mainAction env cfg wm0 ticks) ∧
    (env.configLoadOk = true → env.logFileOk = true → env.logLevelOk = true →
      env.dbOk = true → env.smtpOk = false →
      mainAction env cfg wm0 ticks = [.dbOpened, .logFatal, .processExit 1] ∧
      Event.cronStart ∉ mainAction env cfg wm0 ticks ∧
      ∀ o, Event.tickRan o ∉ mainAction env cfg wm0 ticks) ∧
    (startupOk env →
      (∀ n, Event.processExit n ∉ mainAction env cfg wm0 ticks) ∧
      Event.logFatal ∉ mainAction env cfg wm0 ticks ∧
      Event.cronStart ∈ mainAction env cfg wm0 ticks) := by
  refine ⟨?_, ?_, ?_⟩
  · intro h1 h2 h3 h4
    have htr : mainAction env cfg wm0 ticks = [.logFatal, .processExit 1] := by
      simp [mainAction, h1, h2, h3, h4]
    rw [htr]
    refine ⟨rfl, by simp, ?_⟩
    intro o hmem
    simp at hmem
  · intro h1 h2 h3 h4 h5
    have htr : mainAction env cfg wm0 ticks = [.dbOpened, .logFatal, .processExit 1] := by
      simp [mainAction, h1, h2, h3, h4, h5]
    rw [htr]
    refine ⟨rfl, by simp, ?_⟩
    intro o hmem
    simp at hmem
  · intro h
    obtain ⟨h1, h2, h3, h4, h5⟩ := h
    have htr : mainAction env cfg wm0 ticks =
        ([.dbOpened, .mailerRun, .cronNew, .cronAddFunc, .cronStart] ++
          ticksEvents ⟨wm0⟩ [] (mailerNew cfg) ticks) ++
        [.cronStop, .closeSigs, .closeStop, .dbClose, .logFileClose] := by
      simp [mainAction, h1, h2, h3, h4, h5]
    rw [htr]
    refine ⟨?_, ?_, ?_⟩
    · intro n hmem
      rcases List.mem_append.mp hmem with hm | hm
      · rcases List.mem_append.mp hm with hm | hm
        · simp at hm
        · rcases ticksEvents_tickRan ticks ⟨wm0⟩ [] (mailerNew cfg) _ hm with ⟨o, ho⟩
          cases ho
      · simp at hm
    · intro hmem
      rcases List.mem_append.mp hmem with hm | hm
      · rcases List.mem_append.mp hm with hm | hm
        · simp at hm
        · rcases ticksEvents_tickRan ticks ⟨wm0⟩ [] (mailerNew cfg) _ hm with ⟨o, ho⟩
          cases ho
      · simp at hm
    · exact List.mem_append.mpr (Or.inl (List.mem_append.mpr (Or.inl (by simp))))

/-- Witness for C9: with the database unreachable the trace is the fatal
exit and the scheduler never starts. -/
theorem startup_fatal_runtime_soft_witness :
    mainAction ⟨true, true, true, false, true⟩ cfg0 0 [] = [.logFatal, .processExit 1] ∧
    Event.cronStart ∉ mainAction ⟨true, true, true, false, true⟩ cfg0 0 [] ∧
    ∀ o, Event.tickRan o ∉ mainAction ⟨true, true, true, false, true⟩ cfg0 0 [] :=
  (startup_fatal_runtime_soft ⟨true, true, true, false, true⟩ cfg0 0 []).1
    rfl rfl rfl rfl

/-- Claim C10: if loading the configuration, opening the log file, or
parsing the log level fails, main prints the cause with the help text and
exits with code 128, and the trace contains no database open, no mailer
daemon start, no scheduler creation or start, no tick and no database
close: no component side effect happens on a configuration-stage
failure. -/
theorem config_stage_failure (env : Env) (cfg : Config) (wm0 : Nat)
    (ticks : List Tick)
    (h : env.configLoadOk = false ∨ env.logFileOk = false ∨ env.logLevelOk = false) :
    Event.printCause ∈ mainAction env cfg wm0 ticks ∧
    Event.showAppHelp ∈ mainAction env cfg wm0 ticks ∧
    Event.processExit 128 ∈ mainAction env cfg wm0 ticks ∧
    Event.dbOpened ∉ mainAction env cfg wm0 ticks ∧
    Event.mailerRun ∉ mainAction env cfg wm0 ticks ∧
    Event.cronNew ∉ mainAction env cfg wm0 ticks ∧
    Event.cronStart ∉ mainAction env cfg wm0 ticks ∧
    (∀ o, Event.tickRan o ∉ mainAction env cfg wm0 ticks) ∧
    Event.dbClose ∉ mainAction env cfg wm0 ticks := by
  cases hc : env.configLoadOk with
  | false =>
    have htr : mainAction env cfg wm0 ticks =
        [.printCause, .showAppHelp, .processExit 128] := by
      simp [mainAction, hc]
    rw [htr]
    refine ⟨by simp, by simp, by simp, by simp, by simp, by simp, by simp, ?_, by simp⟩
    intro o hmem
    simp at hmem
  | true =>
    cases hl : env.logFileOk with
    | false =>
      have htr : mainAction env cfg wm0 ticks =
          [.printCause, .showAppHelp, .processExit 128] := by
        simp [mainAction, hc, hl]
      rw [htr]
      refine ⟨by simp, by simp, by simp, by simp, by simp, by simp, by simp, ?_, by simp⟩
      intro o hmem
      simp at hmem
    | true =>
      have hv : env.logLevelOk = false := by
        rcases h with h | h | h
        · rw [hc] at h; cases h
        · rw [hl] at h; cases h
        · exact h
      have htr : mainAction env cfg wm0 ticks =
          [.printCause, .showAppHelp, .logFileClose, .processExit 128] := by
        simp [mainAction, hc, hl, hv]
      rw [htr]
      refine ⟨by simp, by simp, by simp, by simp, by simp, by simp, by simp, ?_, by simp⟩
      intro o hmem
      simp at hmem

/-- Witness for C10: a configuration load failure at a concrete
environment. -/
theorem config_stage_failure_witness :
    Event.printCause ∈ mainAction ⟨false, true, true, true, true⟩ cfg0 0 [] ∧
    Event.showAppHelp ∈ mainAction ⟨false, true, true, true, true⟩ cfg0 0 [] ∧
    Event.processExit 128 ∈ mainAction ⟨false, true, true, true, true⟩ cfg0 0 [] ∧
    Event.dbOpened ∉ mainAction ⟨false, true, true, true, true⟩ cfg0 0 [] ∧
    Event.mailerRun ∉ mainAction ⟨false, true, true, true, true⟩ cfg0 0 [] ∧
    Event.cronNew ∉ mainAction ⟨false, true, true, true, true⟩ cfg0 0 [] ∧
    Event.cronStart ∉ mainAction ⟨false, true, true, true, true⟩ cfg0 0 [] ∧
    (∀ o, Event.tickRan o ∉ mainAction ⟨false, true, true, true, true⟩ cfg0 0 []) ∧
    Event.dbClose ∉ mainAction ⟨false, true, true, true, true⟩ cfg0 0 [] :=
  config_stage_failure ⟨false, true, true, true, true⟩ cfg0 0 [] (Or.inl rfl)

end EmedMailer
